import Mathlib

/-!
# auth-system: registration, login and the JWT gate

A shallow embedding of package `auth` (files `auth.go`, `handlers.go`, `user.go`; the files
`handler.go` and `models/user.go` repeat the same handler and user model line for line) and of
the validator that `auth_test.go` installs.

What the package calls but does not define is kept as small as the handlers need:

* bcrypt is a record of two functions (`Bcrypt`), with the one law the package relies on
  stated separately (`Bcrypt.Lawful`);
* the HMAC of the JWT library is a function argument; the compact serialisation of a token
  is represented by its decoded segments (`TokenString.compact`), every other string by
  `TokenString.text`;
* the relational store behind GORM is a table of rows with the soft-delete scope, the unique
  index on `email`, an auto-increment key that runs out after 2^63 - 1, and a log of the
  calls made on the handle;
* instants and durations are integers counting nanoseconds, as `time.Time` and
  `time.Duration` do; JSON numbers are integer literals, decoded to the nearest float64.
-/

namespace AuthSystem

/-! ## Time -/

/-- Instants of `time.Time`, in nanoseconds since the Unix epoch. -/
abbrev Time := Int

/-- Values of `time.Duration`: a signed count of nanoseconds. -/
abbrev Duration := Int

/-- The constant `time.Second`. -/
def Second : Duration := 1000000000

/-- The constant `time.Hour`. -/
def Hour : Duration := 3600 * Second

/-- The method `Time.Unix`: whole seconds since the epoch, rounded down. -/
def Unix (t : Time) : Int := t / Second

/-- Range of a Go `int64`; `time.Duration` is one, and so is `Time.UnixNano`. -/
def isInt64 (x : Int) : Prop := -(2 ^ 63) ≤ x ∧ x < 2 ^ 63

instance (x : Int) : Decidable (isInt64 x) := by
  unfold isInt64
  infer_instance

/-! ## JSON numbers and float64 -/

/-- Number of low bits that do not fit a 53 bit significand (`fuel` bounds the search). -/
def excessBits : Nat → Nat → Nat
  | 0, _ => 0
  | fuel + 1, n => if n < 2 ^ 53 then 0 else excessBits fuel (n / 2) + 1

/-- The float64 nearest to a natural number, ties to even: what `encoding/json` stores when it
decodes an integer literal into an `interface` value. -/
def roundToFloat64 (n : Nat) : Nat :=
  let e := excessBits n n
  let q := n / 2 ^ e
  let r := n % 2 ^ e
  let q1 := if 2 ^ e < 2 * r ∨ (2 ^ e = 2 * r ∧ q % 2 = 1) then q + 1 else q
  q1 * 2 ^ e

/-- The float64 nearest to an integer (the value is again an integer). -/
def float64 (z : Int) : Int := z.sign * (roundToFloat64 z.natAbs : Int)

/-- The conversion `uint(f)` of a float64 holding an integer. Go leaves the result
implementation dependent when `f` is out of range; a fixed value stands for it there, and no
theorem below depends on which. -/
def uint (f : Int) : Nat := if 0 ≤ f ∧ f < 2 ^ 64 then f.toNat else 2 ^ 63

/-- JSON values as they occur in claims and response bodies. -/
inductive JSONValue
  | null
  | str (s : String)
  | num (n : Int)
  | time (t : Time)
  deriving DecidableEq, Repr

/-! ## User (user.go) -/

/-- The struct `User` with the embedded `gorm.Model` flattened. -/
structure User where
  ID : Nat
  CreatedAt : Time
  UpdatedAt : Time
  DeletedAt : Option Time
  Email : String
  Password : String
  Name : String
  deriving DecidableEq, Repr

/-- The two functions of `golang.org/x/crypto/bcrypt` that the package calls.
`GenerateFromPassword password salt` takes the randomness it draws as the argument `salt`;
`CompareHashAndPassword hash password` returns the error, `none` for a match. -/
structure Bcrypt where
  GenerateFromPassword : String → Nat → Except String String
  CompareHashAndPassword : String → String → Option String

/-- The law of bcrypt that the package relies on: a digest that was generated matches the
password it was generated from. -/
def Bcrypt.Lawful (b : Bcrypt) : Prop :=
  ∀ password salt digest, b.GenerateFromPassword password salt = .ok digest →
    b.CompareHashAndPassword digest password = none

/-- The hook `User.BeforeSave`: the returned error and the user as the hook leaves it. -/
def User.BeforeSave (b : Bcrypt) (salt : Nat) (u : User) : Option String × User :=
  if u.Password ≠ "" then
    match b.GenerateFromPassword u.Password salt with
    | .error err => (some err, u)
    | .ok hashedPassword => (none, { u with Password := hashedPassword })
  else (none, u)

/-- The method `User.CheckPassword`. -/
def User.CheckPassword (b : Bcrypt) (u : User) (password : String) : Bool :=
  let err := b.CompareHashAndPassword u.Password password
  err.isNone

/-- The JSON object that `encoding/json` writes for a `User`, field by field from the struct
tags: `gorm.Model` has no tags, `Password` is tagged `json:"-"` and is skipped. -/
def MarshalUser (u : User) : List (String × JSONValue) :=
  [("ID", .num u.ID),
   ("CreatedAt", .time u.CreatedAt),
   ("UpdatedAt", .time u.UpdatedAt),
   ("DeletedAt", match u.DeletedAt with
      | none => .null
      | some t => .time t),
   ("email", .str u.Email),
   ("name", .str u.Name)]

/-! ## The store behind `*gorm.DB` -/

/-- A call made on the database handle. -/
inductive Query
  | FirstWhereEmail (email : String)
  | FirstByID (id : Nat)
  | Create (email : String)
  deriving DecidableEq, Repr

/-- State of the store: the rows of table `users`, the last key the engine handed out, and
the calls made so far. -/
structure DB where
  rows : List User
  seq : Nat
  log : List Query
  deriving DecidableEq, Repr

/-- The row with the least primary key (`ORDER BY id LIMIT 1`). -/
def firstByPK : List User → Option User
  | [] => none
  | u :: us =>
    match firstByPK us with
    | none => some u
    | some v => if u.ID ≤ v.ID then some u else some v

/-- The call `db.Where("email = ?", email).First(&user)`: the soft-delete scope of `gorm.Model`
hides deleted rows; `none` stands for `ErrRecordNotFound`. -/
def DB.FirstWhereEmail (db : DB) (email : String) : Option User × DB :=
  (firstByPK (db.rows.filter fun u => u.DeletedAt.isNone && u.Email == email),
   { db with log := db.log ++ [.FirstWhereEmail email] })

/-- The call `db.First(&user, id)`: lookup by primary key under the soft-delete scope. -/
def DB.FirstByID (db : DB) (id : Nat) : Option User × DB :=
  (firstByPK (db.rows.filter fun u => u.DeletedAt.isNone && u.ID == id),
   { db with log := db.log ++ [.FirstByID id] })

/-- The largest primary key the engine can hand out: the integer key column is a signed 64
bit value. -/
def maxKey : Nat := 2 ^ 63 - 1

/-- The key the engine assigns to the next inserted row, when there is one left: one above
the largest key ever used. -/
def DB.nextID (db : DB) : Nat := (db.rows.map User.ID).foldl max db.seq + 1

/-- The call `db.Create(&user)` for a user without a key: run the `BeforeSave` hook, stamp the
row, insert it under the unique index on `email` (which also covers soft-deleted rows) with
the next key; the insert fails when the largest key has been used. Returns the error of the
call. -/
def DB.Create (b : Bcrypt) (salt : Nat) (now : Time) (db : DB) (user : User) :
    Option String × DB :=
  let db1 := { db with log := db.log ++ [.Create user.Email] }
  match user.BeforeSave b salt with
  | (some err, _) => (some err, db1)
  | (none, saved) =>
    if db.rows.any (fun u => u.Email == saved.Email) then
      (some "UNIQUE constraint failed: users.email", db1)
    else if maxKey < db.nextID then
      (some "database or disk is full", db1)
    else
      let row := { saved with ID := db.nextID, CreatedAt := now, UpdatedAt := now }
      (none, { db1 with rows := db.rows ++ [row], seq := db.nextID })

/-- The keys of the table: primary keys and emails are pairwise distinct. -/
def DB.Keyed (db : DB) : Prop :=
  (db.rows.map User.ID).Nodup ∧ (db.rows.map User.Email).Nodup

/-! ## Tokens (github.com/golang-jwt/jwt/v5) -/

/-- Claims as a key–value list (`jwt.MapClaims`). -/
abbrev MapClaims := List (String × JSONValue)

/-- The decoded segments of a compact serialisation: the `alg` of the header, the claims as
written (numbers are exact literals), the signature. -/
structure RawToken where
  alg : String
  claims : MapClaims
  signature : String
  deriving DecidableEq, Repr

/-- A header value or token string, seen as the JWT decoder sees it: either three well formed
segments, or any other text (the empty string included). -/
inductive TokenString
  | text (s : String)
  | compact (raw : RawToken)
  deriving DecidableEq, Repr

/-- The keyed hash of the signing methods: method name, key and signed content to signature. -/
abbrev HMAC := String → String → MapClaims → String

/-- An unsigned token from `jwt.NewWithClaims`. -/
structure UnsignedToken where
  Method : String
  Claims : MapClaims
  deriving DecidableEq, Repr

/-- A parsed token (`*jwt.Token`); the numbers in `Claims` are float64 values. -/
structure Token where
  Raw : TokenString
  Method : String
  Claims : MapClaims
  Signature : String
  Valid : Bool
  deriving DecidableEq, Repr

/-- The signing methods that accept a byte-slice key. -/
def hmacMethods : List String := ["HS256", "HS384", "HS512"]

/-- The function `jwt.NewWithClaims`. -/
def NewWithClaims (method : String) (claims : MapClaims) : UnsignedToken :=
  { Method := method, Claims := claims }

/-- The method `Token.SignedString` with a byte-slice key. -/
def UnsignedToken.SignedString (hmac : HMAC) (t : UnsignedToken) (key : String) :
    Except String TokenString :=
  if t.Method ∈ hmacMethods then
    .ok (.compact { alg := t.Method, claims := t.Claims,
                    signature := hmac t.Method key t.Claims })
  else .error "key is of invalid type"

/-- The reasons for which `jwt.Parse` fails. -/
inductive ParseError
  | malformed
  | unverifiable
  | signatureInvalid
  | invalidType
  | expired
  | notValidYet
  deriving DecidableEq, Repr

/-- JSON decoding of the claims segment into a map of `interface` values: every number becomes
a float64. -/
def decodeClaims (claims : MapClaims) : MapClaims :=
  claims.map fun kv =>
    match kv.2 with
    | .num n => (kv.1, .num (float64 n))
    | v => (kv.1, v)

/-- The method `MapClaims.parseNumericDate`: an absent key and a float64 zero give no date, a
number gives that second, anything else is an error. -/
def parseNumericDate (claims : MapClaims) (key : String) : Except ParseError (Option Int) :=
  match claims.lookup key with
  | none => .ok none
  | some (.num f) => if f = 0 then .ok none else .ok (some f)
  | some _ => .error .invalidType

/-- The check `Validator.verifyExpiresAt`: an `exp` date must lie after `now`. -/
def verifyExpiresAt (claims : MapClaims) (now : Time) : Option ParseError :=
  match parseNumericDate claims "exp" with
  | .error e => some e
  | .ok none => none
  | .ok (some exp) => if now < exp * Second then none else some .expired

/-- The check `Validator.verifyNotBefore`: an `nbf` date must not lie after `now`. -/
def verifyNotBefore (claims : MapClaims) (now : Time) : Option ParseError :=
  match parseNumericDate claims "nbf" with
  | .error e => some e
  | .ok none => none
  | .ok (some nbf) => if now < nbf * Second then some .notValidYet else none

/-- The default claims validation of `jwt.Parse`: expiry, then not-before. -/
def validateClaims (claims : MapClaims) (now : Time) : Option ParseError :=
  match verifyExpiresAt claims now with
  | some e => some e
  | none => verifyNotBefore claims now

/-- The function `jwt.Parse` with a key function that returns the byte-slice `key`: decode,
look up the method, verify the signature, validate the claims. -/
def Parse (hmac : HMAC) (tokenString : TokenString) (key : String) (now : Time) :
    Except ParseError Token :=
  match tokenString with
  | .text _ => .error .malformed
  | .compact raw =>
    if raw.alg ∉ hmacMethods then .error .unverifiable
    else if hmac raw.alg key raw.claims ≠ raw.signature then .error .signatureInvalid
    else
      let claims := decodeClaims raw.claims
      match validateClaims claims now with
      | some e => .error e
      | none => .ok { Raw := tokenString, Method := raw.alg, Claims := claims,
                      Signature := raw.signature, Valid := true }

/-! ## Echo: errors, responses, contexts, validation -/

/-- Error values that a handler returns. -/
inductive Error
  | HTTPError (code : Nat) (message : String)
  | ValidationErrors (fields : List (String × String))
  deriving DecidableEq, Repr

/-- What `c.JSON` serialises. -/
inductive Body
  | message (text : String)
  | LoginResponse (Token : TokenString)
  | user (fields : List (String × JSONValue))
  deriving DecidableEq, Repr

/-- What running a handler comes to: a response written with `c.JSON` (the handler returns
nil), a returned error, or a failed type assertion. -/
inductive Outcome
  | json (code : Nat) (body : Body)
  | err (e : Error)
  | panicked
  deriving DecidableEq, Repr

/-- The status and message with which `Echo.DefaultHTTPErrorHandler` answers a returned error:
an `HTTPError` keeps its code, every other error becomes 500. -/
def DefaultHTTPErrorHandler : Error → Nat × Body
  | .HTTPError code message => (code, .message message)
  | _ => (500, .message "Internal Server Error")

/-- The HTTP status that the client sees (none when the handler panicked). -/
def Outcome.status : Outcome → Option Nat
  | .json code _ => some code
  | .err e => some (DefaultHTTPErrorHandler e).1
  | .panicked => none

/-- The parts of `echo.Context` that the package reads and writes: the `Authorization` header
as `Header.Get` returns it (the empty text when absent) and the value stored under `"user"`. -/
structure Context where
  Authorization : TokenString
  user : Option Token
  deriving DecidableEq, Repr

/-- The call `c.Set("user", token)`. -/
def Context.Set (c : Context) (token : Token) : Context := { c with user := some token }

/-- A handler (`echo.HandlerFunc`) that threads a state of type `σ`. -/
abbrev HandlerFunc (σ : Type) := Context → σ → Outcome × σ

/-- The request struct `RegisterRequest`. -/
structure RegisterRequest where
  Email : String
  Password : String
  Name : String
  deriving DecidableEq, Repr

/-- The request struct `LoginRequest`. -/
structure LoginRequest where
  Email : String
  Password : String
  deriving DecidableEq, Repr

/-- The interface `echo.Validator`, at the two request types it is called with. -/
structure Validator where
  ValidateRegister : RegisterRequest → Option Error
  ValidateLogin : LoginRequest → Option Error

/-- The part of `*echo.Echo` that `c.Validate` consults. -/
structure Echo where
  Validator : Option Validator

/-- The sentinel `echo.ErrValidatorNotRegistered`. -/
def ErrValidatorNotRegistered : Error := .HTTPError 500 "validator not registered"

/-- The call `c.Validate(&req)` on a `RegisterRequest`. -/
def Echo.ValidateRegister (e : Echo) (req : RegisterRequest) : Option Error :=
  match e.Validator with
  | none => some ErrValidatorNotRegistered
  | some v => v.ValidateRegister req

/-- The call `c.Validate(&req)` on a `LoginRequest`. -/
def Echo.ValidateLogin (e : Echo) (req : LoginRequest) : Option Error :=
  match e.Validator with
  | none => some ErrValidatorNotRegistered
  | some v => v.ValidateLogin req

/-- One field under its `validate` tags, as `validator.Struct` checks it: the tags in order,
the first failing one is reported. -/
def checkField (field : String) (tags : List (String × Bool)) : List (String × String) :=
  match tags.find? (fun t => !t.2) with
  | none => []
  | some t => [(field, t.1)]

/-- The type `CustomValidator` of `auth_test.go`: `Validate` returns what `validator.Struct`
returns, the field errors as they are. `isEmail` is the `email` rule of the validator
library; `min=6` counts runes. -/
def CustomValidator (isEmail : String → Bool) : Validator where
  ValidateRegister := fun req =>
    let errs :=
      checkField "Email" [("required", req.Email != ""), ("email", isEmail req.Email)] ++
      checkField "Password" [("required", req.Password != ""),
                             ("min", decide (6 ≤ req.Password.length))] ++
      checkField "Name" [("required", req.Name != "")]
    if errs = [] then none else some (.ValidationErrors errs)
  ValidateLogin := fun req =>
    let errs :=
      checkField "Email" [("required", req.Email != ""), ("email", isEmail req.Email)] ++
      checkField "Password" [("required", req.Password != "")]
    if errs = [] then none else some (.ValidationErrors errs)

/-! ## Configuration (auth.go) -/

/-- A database handle (`*gorm.DB`), named by its data source. -/
structure Handle where
  dsn : String
  deriving DecidableEq, Repr

/-- The struct `Config`; the field `DB` is `none` for a nil pointer. -/
structure Config where
  JWTSecret : String
  TokenDuration : Duration
  DB : Option Handle
  deriving DecidableEq, Repr

/-- The struct `AuthHandler`. -/
structure AuthHandler where
  db : Handle
  jwtSecret : String
  tokenDuration : Duration
  deriving DecidableEq, Repr

/-- The struct `Auth`; `config` is the configuration as `New` leaves it. -/
structure Auth where
  config : Config
  handler : AuthHandler
  deriving DecidableEq, Repr

/-- The constructor `NewAuthHandler`. -/
def NewAuthHandler (db : Handle) (jwtSecret : String) (tokenDuration : Duration) : AuthHandler :=
  { db := db, jwtSecret := jwtSecret, tokenDuration := tokenDuration }

/-- The constructor `New`. -/
def New (config : Config) : Except String Auth :=
  if config.JWTSecret = "" then .error "JWT secret is required"
  else
    match config.DB with
    | none => .error "database connection is required"
    | some db =>
      let config :=
        if config.TokenDuration = 0 then { config with TokenDuration := 24 * Hour } else config
      let handler := NewAuthHandler db config.JWTSecret config.TokenDuration
      .ok { config := config, handler := handler }

/-! ## Handlers (handlers.go) -/

/-- The handler `AuthHandler.Register`. `body` is what `c.Bind` produced (`none` when binding
failed), `salt` the randomness bcrypt draws, `now` the clock. -/
def AuthHandler.Register (e : Echo) (b : Bcrypt) (_h : AuthHandler) (salt : Nat) (now : Time)
    (body : Option RegisterRequest) (db : DB) : Outcome × DB :=
  match body with
  | none => (.err (.HTTPError 400 "Invalid request body"), db)
  | some req =>
    match e.ValidateRegister req with
    | some err => (.err err, db)
    | none =>
      match db.FirstWhereEmail req.Email with
      | (some _, db1) => (.err (.HTTPError 409 "Email already exists"), db1)
      | (none, db1) =>
        let user : User :=
          { ID := 0, CreatedAt := 0, UpdatedAt := 0, DeletedAt := none,
            Email := req.Email, Password := req.Password, Name := req.Name }
        match db1.Create b salt now user with
        | (some _, db2) => (.err (.HTTPError 500 "Failed to create user"), db2)
        | (none, db2) => (.json 201 (.message "User registered successfully"), db2)

/-- The handler `AuthHandler.Login`. -/
def AuthHandler.Login (e : Echo) (b : Bcrypt) (hmac : HMAC) (h : AuthHandler) (now : Time)
    (body : Option LoginRequest) (db : DB) : Outcome × DB :=
  match body with
  | none => (.err (.HTTPError 400 "Invalid request body"), db)
  | some req =>
    match e.ValidateLogin req with
    | some err => (.err err, db)
    | none =>
      match db.FirstWhereEmail req.Email with
      | (none, db1) => (.err (.HTTPError 401 "Invalid email or password"), db1)
      | (some user, db1) =>
        if !user.CheckPassword b req.Password then
          (.err (.HTTPError 401 "Invalid email or password"), db1)
        else
          let token := NewWithClaims "HS256"
            [("exp", .num (Unix (now + h.tokenDuration))), ("sub", .num user.ID)]
          match token.SignedString hmac h.jwtSecret with
          | .error _ => (.err (.HTTPError 500 "Failed to generate token"), db1)
          | .ok tokenString => (.json 200 (.LoginResponse tokenString), db1)

/-- The handler `AuthHandler.GetProfile`. The three type assertions on the context value
panic when the value is missing or `sub` is not a number. -/
def AuthHandler.GetProfile (_h : AuthHandler) : HandlerFunc DB := fun c db =>
  match c.user with
  | none => (.panicked, db)
  | some token =>
    match token.Claims.lookup "sub" with
    | some (.num userID) =>
      match db.FirstByID (uint userID) with
      | (none, db1) => (.err (.HTTPError 404 "User not found"), db1)
      | (some user, db1) => (.json 200 (.user (MarshalUser user)), db1)
    | _ => (.panicked, db)

/-- The middleware `Auth.JWTMiddleware`, applied to the handler `next`. -/
def Auth.JWTMiddleware {σ : Type} (hmac : HMAC) (a : Auth) (now : Time)
    (next : HandlerFunc σ) : HandlerFunc σ := fun c s =>
  let tokenString := c.Authorization
  if tokenString = .text "" then
    (.err (.HTTPError 401 "Missing authorization header"), s)
  else
    match Parse hmac tokenString a.config.JWTSecret now with
    | .error _ => (.err (.HTTPError 401 "Invalid token"), s)
    | .ok token => next (c.Set token) s

/-- The route `GET /api/profile` as `RegisterRoutes` mounts it: `GetProfile` behind the
middleware. -/
def Auth.profileRoute (hmac : HMAC) (a : Auth) (now : Time) : HandlerFunc DB :=
  a.JWTMiddleware hmac now a.handler.GetProfile

/-- A handler wrapped so that every invocation is counted. -/
def counting {σ : Type} (next : HandlerFunc σ) : HandlerFunc (σ × Nat) := fun c s =>
  let r := next c s.1
  (r.1, (r.2, s.2 + 1))

/-! ## The token of a login -/

/-- The token string that `Login` builds for `user` at instant `now`. -/
def issuedToken (hmac : HMAC) (h : AuthHandler) (now : Time) (user : User) : TokenString :=
  .compact
    { alg := "HS256",
      claims := [("exp", .num (Unix (now + h.tokenDuration))), ("sub", .num user.ID)],
      signature := hmac "HS256" h.jwtSecret
        [("exp", .num (Unix (now + h.tokenDuration))), ("sub", .num user.ID)] }

/-- The parsed form of that token. -/
def issuedParsed (hmac : HMAC) (h : AuthHandler) (now : Time) (user : User) : Token :=
  { Raw := issuedToken hmac h now user, Method := "HS256",
    Claims := [("exp", .num (float64 (Unix (now + h.tokenDuration)))),
               ("sub", .num (float64 user.ID))],
    Signature := hmac "HS256" h.jwtSecret
      [("exp", .num (Unix (now + h.tokenDuration))), ("sub", .num user.ID)],
    Valid := true }

/-! ## Reference instances of the external functions -/

/-- A bcrypt stand-in that keeps the interface of the library: passwords over 72 bytes are
refused, the digest depends on the salt, and comparison ignores the salt. -/
def refBcrypt : Bcrypt where
  GenerateFromPassword := fun password salt =>
    if 72 < password.utf8ByteSize then .error "bcrypt: password length exceeds 72 bytes"
    else .ok (String.mk (List.replicate (salt + 1) '$' ++ password.data))
  CompareHashAndPassword := fun hash password =>
    if hash.data.dropWhile (fun c => c == '$') = password.data.dropWhile (fun c => c == '$')
    then none
    else some "crypto/bcrypt: hashedPassword is not the hash of the given password"

/-- A keyed hash stand-in: key, method and the claim keys with their values in decimal. -/
def refHMAC : HMAC := fun alg key claims =>
  key ++ "/" ++ alg ++ "/" ++ String.join (claims.map fun kv =>
    match kv.2 with
    | .num n => kv.1 ++ (if 0 ≤ n then "+" else "-") ++ String.mk (Nat.toDigits 10 n.natAbs)
    | .time t => kv.1 ++ (if 0 ≤ t then "+" else "-") ++ String.mk (Nat.toDigits 10 t.natAbs)
    | .str s => kv.1 ++ s
    | .null => kv.1)

/-- A stand-in for the `email` rule: some text, an at sign, some text. -/
def refIsEmail (s : String) : Bool :=
  match s.data.span (fun c => c != '@') with
  | (name, '@' :: domain) => !name.isEmpty && !domain.isEmpty && !domain.contains '@'
  | _ => false

/-- The Echo instance of `setupTestAuth`: the validator is a `CustomValidator`; the `email`
rule of the validator library is the argument. -/
def setupEcho (isEmail : String → Bool) : Echo := { Validator := some (CustomValidator isEmail) }

/-- The Echo instance of `setupTestAuth` with the stand-in `email` rule. -/
def testEcho : Echo := setupEcho refIsEmail

/-- The `Auth` of `setupTestAuth`: secret "test-secret", one hour. -/
def testAuth : Auth :=
  { config := { JWTSecret := "test-secret", TokenDuration := Hour, DB := some ⟨"memory"⟩ },
    handler := NewAuthHandler ⟨"memory"⟩ "test-secret" Hour }

/-- The empty store. -/
def emptyDB : DB := { rows := [], seq := 0, log := [] }

/-- The user of the test suite as stored (password "password123" hashed with salt 0). -/
def testUser : User :=
  { ID := 1, CreatedAt := 1, UpdatedAt := 1, DeletedAt := none,
    Email := "test@example.com", Password := "$password123", Name := "Test User" }

/-- The store of the test suite after the registration. -/
def oneUserDB : DB :=
  { rows := [testUser], seq := 1,
    log := [.FirstWhereEmail "test@example.com", .Create "test@example.com"] }

/-- A password of 73 bytes. -/
def longPassword : String := String.mk (List.replicate 73 'a')

/-- A user, not yet saved, whose password is 73 bytes long. -/
def longPasswordUser : User :=
  { ID := 0, CreatedAt := 0, UpdatedAt := 0, DeletedAt := none,
    Email := "a@b.com", Password := longPassword, Name := "A" }

/-- A user whose key is 2^53 + 1, the first integer that float64 cannot hold. -/
def bigIDUser : User :=
  { ID := 2 ^ 53 + 1, CreatedAt := 1, UpdatedAt := 1, DeletedAt := none,
    Email := "a@b.com", Password := "$secret1", Name := "A" }

/-- The user with the key just below. -/
def neighbourUser : User :=
  { ID := 2 ^ 53, CreatedAt := 1, UpdatedAt := 1, DeletedAt := none,
    Email := "n@b.com", Password := "$secret2", Name := "N" }

/-- A store that holds both. -/
def bigIDDB : DB := { rows := [neighbourUser, bigIDUser], seq := 2 ^ 53 + 1, log := [] }

/-- A user that holds the largest key. -/
def lastKeyUser : User :=
  { ID := 2 ^ 63 - 1, CreatedAt := 1, UpdatedAt := 1, DeletedAt := none,
    Email := "last@b.com", Password := "$secret3", Name := "L" }

/-- A store in which the largest key is taken. -/
def lastKeyDB : DB := { rows := [lastKeyUser], seq := 2 ^ 63 - 1, log := [] }

/-- A configuration that `New` accepts, with a token duration of one nanosecond. -/
def shortConfig : Config := { JWTSecret := "k", TokenDuration := 1, DB := some ⟨"memory"⟩ }

/-- The `Auth` that `New` builds from it. -/
def shortAuth : Auth := { config := shortConfig, handler := NewAuthHandler ⟨"memory"⟩ "k" 1 }

/-- The configuration of `setupTestAuth`. -/
def testConfig : Config :=
  { JWTSecret := "test-secret", TokenDuration := Hour, DB := some ⟨"memory"⟩ }

/-! ## Lemmas -/

/-! ### float64 and time -/

theorem excessBits_of_lt (fuel n : Nat) (h : n < 2 ^ 53) : excessBits fuel n = 0 := by
  cases fuel with
  | zero => rfl
  | succ k =>
    unfold excessBits
    rw [if_pos h]

theorem roundToFloat64_of_le (n : Nat) (h : n ≤ 2 ^ 53) : roundToFloat64 n = n := by
  rcases Nat.lt_or_eq_of_le h with hlt | heq
  · simp [roundToFloat64, excessBits_of_lt n n hlt, Nat.mod_one]
  · subst heq
    decide

theorem float64_of_natAbs_le (z : Int) (h : z.natAbs ≤ 2 ^ 53) : float64 z = z := by
  unfold float64
  rw [roundToFloat64_of_le _ h]
  exact Int.sign_mul_natAbs z

theorem float64_natCast (n : Nat) (h : n ≤ 2 ^ 53) : float64 (n : Int) = (n : Int) :=
  float64_of_natAbs_le _ (by simpa using h)

theorem uint_natCast (n : Nat) (h : n ≤ 2 ^ 53) : uint (n : Int) = n := by
  unfold uint
  have h2 : (0 : Int) ≤ (n : Int) ∧ (n : Int) < 2 ^ 64 := by
    have : (n : Int) ≤ 2 ^ 53 := by exact_mod_cast h
    omega
  rw [if_pos h2]
  exact Int.toNat_natCast n

/-- The expiry second of a token issued at an `int64` instant for an `int64` duration is
exactly representable. -/
theorem float64_Unix (t d : Int) (ht : isInt64 t) (hd : isInt64 d) :
    float64 (Unix (t + d)) = Unix (t + d) := by
  apply float64_of_natAbs_le
  unfold isInt64 at ht hd
  unfold Unix Second
  omega

theorem Unix_mul_le (x : Int) : Unix x * Second ≤ x := by
  unfold Unix Second
  omega

theorem lt_Unix_mul (x : Int) : x - Second < Unix x * Second := by
  unfold Unix Second
  omega

/-! ### The store -/

theorem firstByPK_eq_none (l : List User) : firstByPK l = none ↔ l = [] := by
  cases l with
  | nil => simp [firstByPK]
  | cons u us =>
    simp only [firstByPK]
    cases firstByPK us with
    | none => simp
    | some v => by_cases h : u.ID ≤ v.ID <;> simp [h]

theorem firstByPK_mem (l : List User) (u : User) (h : firstByPK l = some u) : u ∈ l := by
  induction l generalizing u with
  | nil => simp [firstByPK] at h
  | cons w ws ih =>
    simp only [firstByPK] at h
    cases hws : firstByPK ws with
    | none =>
      rw [hws] at h
      simp only [Option.some.injEq] at h
      simp [h]
    | some v =>
      rw [hws] at h
      by_cases hle : w.ID ≤ v.ID
      · simp only [hle, if_true, Option.some.injEq] at h
        simp [h]
      · simp only [hle, if_false, Option.some.injEq] at h
        subst h
        exact List.mem_cons_of_mem _ (ih v hws)

theorem firstByPK_map (g : User → User) (hg : ∀ u, (g u).ID = u.ID) (l : List User) :
    firstByPK (l.map g) = (firstByPK l).map g := by
  induction l with
  | nil => rfl
  | cons w ws ih =>
    simp only [List.map_cons, firstByPK, ih]
    cases firstByPK ws with
    | none => rfl
    | some v =>
      simp only [Option.map_some', hg]
      by_cases hle : w.ID ≤ v.ID <;> simp [hle]

/-- What `FirstWhereEmail` finds is a live row with that email. -/
theorem FirstWhereEmail_some (db : DB) (email : String) (u : User)
    (h : (db.FirstWhereEmail email).1 = some u) :
    u ∈ db.rows ∧ u.DeletedAt = none ∧ u.Email = email := by
  have hm := firstByPK_mem _ u h
  simpa [List.mem_filter, Option.isNone_iff_eq_none] using hm

/-- Without a live row of that email `FirstWhereEmail` finds nothing. -/
theorem FirstWhereEmail_none (db : DB) (email : String)
    (h : ∀ v ∈ db.rows, v.DeletedAt = none → v.Email ≠ email) :
    (db.FirstWhereEmail email).1 = none := by
  apply (firstByPK_eq_none _).2
  rw [List.filter_eq_nil_iff]
  intro v hv
  have := h v hv
  cases hd : v.DeletedAt with
  | none => simpa [hd] using this hd
  | some t => simp

/-- With a live row of that email `FirstWhereEmail` finds one. -/
theorem FirstWhereEmail_isSome (db : DB) (email : String) (u : User) (hu : u ∈ db.rows)
    (hlive : u.DeletedAt = none) (hemail : u.Email = email) :
    ∃ v, (db.FirstWhereEmail email).1 = some v := by
  cases h : (db.FirstWhereEmail email).1 with
  | some v => exact ⟨v, rfl⟩
  | none =>
    exfalso
    have hnil := (firstByPK_eq_none _).1 h
    rw [List.filter_eq_nil_iff] at hnil
    have := hnil u hu
    simp [hlive, hemail] at this

/-- Under a key on `email`, `FirstWhereEmail` finds the live row of that email. -/
theorem FirstWhereEmail_of_unique (db : DB) (email : String) (u : User) (hu : u ∈ db.rows)
    (hlive : u.DeletedAt = none) (hemail : u.Email = email)
    (huniq : ∀ v ∈ db.rows, v.DeletedAt = none → v.Email = email → v = u) :
    (db.FirstWhereEmail email).1 = some u := by
  obtain ⟨v, hv⟩ := FirstWhereEmail_isSome db email u hu hlive hemail
  obtain ⟨hvm, hvl, hve⟩ := FirstWhereEmail_some db email v hv
  rw [hv, huniq v hvm hvl hve]

/-- What `FirstByID` finds is a live row with that key. -/
theorem FirstByID_some (db : DB) (id : Nat) (u : User) (h : (db.FirstByID id).1 = some u) :
    u ∈ db.rows ∧ u.DeletedAt = none ∧ u.ID = id := by
  have hm := firstByPK_mem _ u h
  simpa [List.mem_filter, Option.isNone_iff_eq_none] using hm

/-- Without a live row of that key `FirstByID` finds nothing. -/
theorem FirstByID_none (db : DB) (id : Nat)
    (h : ∀ v ∈ db.rows, v.DeletedAt = none → v.ID ≠ id) : (db.FirstByID id).1 = none := by
  apply (firstByPK_eq_none _).2
  rw [List.filter_eq_nil_iff]
  intro v hv
  have := h v hv
  cases hd : v.DeletedAt with
  | none => simpa [hd] using this hd
  | some t => simp

/-- Under the primary key, `FirstByID` finds the live row of that key. -/
theorem FirstByID_of_unique (db : DB) (u : User) (hu : u ∈ db.rows) (hlive : u.DeletedAt = none)
    (huniq : ∀ v ∈ db.rows, v.DeletedAt = none → v.ID = u.ID → v = u) :
    (db.FirstByID u.ID).1 = some u := by
  cases h : (db.FirstByID u.ID).1 with
  | some v =>
    obtain ⟨hvm, hvl, hvi⟩ := FirstByID_some db u.ID v h
    rw [huniq v hvm hvl hvi]
  | none =>
    exfalso
    have hnil := (firstByPK_eq_none _).1 h
    rw [List.filter_eq_nil_iff] at hnil
    have := hnil u hu
    simp [hlive] at this

theorem FirstWhereEmail_snd (db : DB) (email : String) :
    (db.FirstWhereEmail email).2 = { db with log := db.log ++ [.FirstWhereEmail email] } := rfl

/-! ### Validation -/

theorem ValidateLogin_ok (isEmail : String → Bool) (req : LoginRequest)
    (hemail : req.Email ≠ "") (hsyn : isEmail req.Email = true) (hpw : req.Password ≠ "") :
    (setupEcho isEmail).ValidateLogin req = none := by
  simp [setupEcho, Echo.ValidateLogin, CustomValidator, checkField, hemail, hsyn, hpw]

theorem ValidateRegister_ok (isEmail : String → Bool) (req : RegisterRequest)
    (hemail : req.Email ≠ "") (hsyn : isEmail req.Email = true)
    (hpw : 6 ≤ req.Password.length) (hname : req.Name ≠ "") :
    (setupEcho isEmail).ValidateRegister req = none := by
  have hpw2 : req.Password ≠ "" := by
    intro h
    rw [h] at hpw
    simp at hpw
  simp [setupEcho, Echo.ValidateRegister, CustomValidator, checkField, hemail, hsyn, hpw,
    hpw2, hname]

theorem checkField_eq_nil (field : String) (tags : List (String × Bool)) :
    checkField field tags = [] ↔ ∀ t ∈ tags, t.2 = true := by
  unfold checkField
  cases h : tags.find? (fun t => !t.2) with
  | none =>
    simp only [true_iff]
    intro t ht
    have := List.find?_eq_none.1 h t ht
    simpa using this
  | some t =>
    simp only [List.cons_ne_nil, false_iff]
    intro hall
    have hmem := List.mem_of_find?_eq_some h
    have hp := List.find?_some h
    rw [hall t hmem] at hp
    simp at hp

/-- A request that breaks one of the `validate` tags gets field errors from `CustomValidator`,
and the error is not an `HTTPError`. -/
theorem ValidateRegister_invalid (isEmail : String → Bool) (req : RegisterRequest)
    (h : req.Email = "" ∨ isEmail req.Email = false ∨ req.Password.length < 6 ∨ req.Name = "") :
    ∃ fields, fields ≠ [] ∧
      (setupEcho isEmail).ValidateRegister req = some (.ValidationErrors fields) := by
  simp only [setupEcho, Echo.ValidateRegister, CustomValidator]
  split
  · rename_i hnil
    exfalso
    simp only [List.append_eq_nil, checkField_eq_nil] at hnil
    obtain ⟨⟨h1, h2⟩, h3⟩ := hnil
    have e1 := h1 ("required", req.Email != "") (by simp)
    have e2 := h1 ("email", isEmail req.Email) (by simp)
    have e3 := h2 ("min", decide (6 ≤ req.Password.length)) (by simp)
    have e4 := h3 ("required", req.Name != "") (by simp)
    simp at e1 e2 e3 e4
    rcases h with h | h | h | h
    · exact e1 h
    · rw [e2] at h
      exact Bool.noConfusion h
    · omega
    · exact e4 h
  · rename_i hne
    exact ⟨_, hne, rfl⟩

/-! ### Tokens and handlers -/

/-- What a successful `Parse` implies: a well formed token with an HMAC method, the signature
that the key gives, and claims that pass the expiry and the not-before check. -/
theorem Parse_ok_inv (hmac : HMAC) (tokenString : TokenString) (key : String) (now : Time)
    (token : Token) (h : Parse hmac tokenString key now = .ok token) :
    ∃ raw, tokenString = .compact raw ∧ raw.alg ∈ hmacMethods ∧
      hmac raw.alg key raw.claims = raw.signature ∧
      verifyExpiresAt (decodeClaims raw.claims) now = none ∧
      verifyNotBefore (decodeClaims raw.claims) now = none ∧
      token.Claims = decodeClaims raw.claims := by
  cases tokenString with
  | text t => simp [Parse] at h
  | compact raw =>
    unfold Parse at h
    simp only at h
    by_cases halg : raw.alg ∈ hmacMethods
    · by_cases hsig : hmac raw.alg key raw.claims = raw.signature
      · simp only [halg, not_true_eq_false, if_false, hsig, ne_eq] at h
        cases hv : validateClaims (decodeClaims raw.claims) now with
        | some e => simp [hv] at h
        | none =>
          simp only [hv, Except.ok.injEq] at h
          have hv2 := hv
          unfold validateClaims at hv2
          cases he : verifyExpiresAt (decodeClaims raw.claims) now with
          | some e => simp [he] at hv2
          | none =>
            simp only [he] at hv2
            exact ⟨raw, rfl, halg, hsig, he, hv2, by rw [← h]⟩
      · simp [halg, hsig] at h
    · simp [halg] at h

theorem Parse_issuedToken (hmac : HMAC) (h : AuthHandler) (now t : Time) (user : User) :
    Parse hmac (issuedToken hmac h now user) h.jwtSecret t =
      if float64 (Unix (now + h.tokenDuration)) = 0 ∨
          t < float64 (Unix (now + h.tokenDuration)) * Second
      then .ok (issuedParsed hmac h now user) else .error .expired := by
  by_cases h0 : float64 (Unix (now + h.tokenDuration)) = 0
  · simp [Parse, issuedToken, issuedParsed, hmacMethods, decodeClaims, validateClaims,
      verifyExpiresAt, verifyNotBefore, parseNumericDate, List.lookup, h0]
  · by_cases hlt : t < float64 (Unix (now + h.tokenDuration)) * Second
    · simp [Parse, issuedToken, issuedParsed, hmacMethods, decodeClaims, validateClaims,
        verifyExpiresAt, verifyNotBefore, parseNumericDate, List.lookup, h0, hlt]
    · simp [Parse, issuedToken, issuedParsed, hmacMethods, decodeClaims, validateClaims,
        verifyExpiresAt, verifyNotBefore, parseNumericDate, List.lookup, h0, hlt]

theorem issuedToken_ne_empty (hmac : HMAC) (h : AuthHandler) (now : Time) (user : User) :
    issuedToken hmac h now user ≠ .text "" := by
  simp [issuedToken]

/-- What `Login` returns once the request passed validation, by what the store finds. -/
theorem Login_validated (e : Echo) (b : Bcrypt) (hmac : HMAC) (h : AuthHandler) (now : Time)
    (req : LoginRequest) (db : DB) (hv : e.ValidateLogin req = none) :
    h.Login e b hmac now (some req) db =
      (match (db.FirstWhereEmail req.Email).1 with
       | none => .err (.HTTPError 401 "Invalid email or password")
       | some user =>
         if user.CheckPassword b req.Password then
           .json 200 (.LoginResponse (issuedToken hmac h now user))
         else .err (.HTTPError 401 "Invalid email or password"),
       (db.FirstWhereEmail req.Email).2) := by
  unfold AuthHandler.Login
  simp only [hv]
  cases hf : db.FirstWhereEmail req.Email with
  | mk r db1 =>
    cases r with
    | none => rfl
    | some user =>
      by_cases hp : user.CheckPassword b req.Password = true
      · simp [hp, NewWithClaims, UnsignedToken.SignedString, hmacMethods, issuedToken]
      · simp [hp]

/-- The outcome of `GetProfile`, by what the context and the store hold. -/
theorem GetProfile_fst (h : AuthHandler) (c : Context) (db : DB) :
    (h.GetProfile c db).1 =
      match c.user with
      | none => .panicked
      | some token =>
        match token.Claims.lookup "sub" with
        | some (.num userID) =>
          (match (db.FirstByID (uint userID)).1 with
           | none => .err (.HTTPError 404 "User not found")
           | some user => .json 200 (.user (MarshalUser user)))
        | _ => .panicked := by
  unfold AuthHandler.GetProfile
  cases c.user with
  | none => rfl
  | some token =>
    simp only
    cases token.Claims.lookup "sub" with
    | none => rfl
    | some v =>
      cases v with
      | num userID =>
        simp only
        cases hf : db.FirstByID (uint userID) with
        | mk r d =>
          cases r with
          | none => rfl
          | some w => rfl
      | null => rfl
      | str s => rfl
      | time t => rfl

/-! ### The reference instances -/

theorem dropWhile_replicate_append (n : Nat) (l : List Char) :
    (List.replicate n '$' ++ l).dropWhile (fun c => c == '$') =
      l.dropWhile (fun c => c == '$') := by
  induction n with
  | zero => rfl
  | succ k ih => simp [List.replicate_succ, List.dropWhile_cons, ih]

theorem refBcrypt_lawful : refBcrypt.Lawful := by
  intro password salt digest h
  simp only [refBcrypt] at h ⊢
  split at h
  · cases h
  · injection h with h
    subst h
    simp [dropWhile_replicate_append]

/-- What `Register` does once the request passed validation. -/
theorem Register_validated (e : Echo) (b : Bcrypt) (h : AuthHandler) (salt : Nat) (now : Time)
    (req : RegisterRequest) (db : DB) (hv : e.ValidateRegister req = none) :
    h.Register e b salt now (some req) db =
      match (db.FirstWhereEmail req.Email).1 with
      | some _ => (.err (.HTTPError 409 "Email already exists"), (db.FirstWhereEmail req.Email).2)
      | none =>
        match ((db.FirstWhereEmail req.Email).2.Create b salt now
            { ID := 0, CreatedAt := 0, UpdatedAt := 0, DeletedAt := none,
              Email := req.Email, Password := req.Password, Name := req.Name }).1 with
        | some _ =>
          (.err (.HTTPError 500 "Failed to create user"),
           ((db.FirstWhereEmail req.Email).2.Create b salt now
            { ID := 0, CreatedAt := 0, UpdatedAt := 0, DeletedAt := none,
              Email := req.Email, Password := req.Password, Name := req.Name }).2)
        | none =>
          (.json 201 (.message "User registered successfully"),
           ((db.FirstWhereEmail req.Email).2.Create b salt now
            { ID := 0, CreatedAt := 0, UpdatedAt := 0, DeletedAt := none,
              Email := req.Email, Password := req.Password, Name := req.Name }).2) := by
  unfold AuthHandler.Register
  simp only [hv]
  cases hf : db.FirstWhereEmail req.Email with
  | mk r db1 =>
    cases r with
    | some u => rfl
    | none =>
      simp only
      cases hc : db1.Create b salt now
          { ID := 0, CreatedAt := 0, UpdatedAt := 0, DeletedAt := none,
            Email := req.Email, Password := req.Password, Name := req.Name } with
      | mk r2 db2 =>
        cases r2 with
        | some err => rfl
        | none => rfl

/-- The insert succeeds when bcrypt hashes the password, no row holds the email and a key is
left. -/
theorem Create_ok (b : Bcrypt) (salt : Nat) (now : Time) (db : DB) (user : User)
    (digest : String) (hpw : user.Password ≠ "")
    (hhash : b.GenerateFromPassword user.Password salt = .ok digest)
    (hfresh : ∀ u ∈ db.rows, u.Email ≠ user.Email) (hkey : db.nextID ≤ maxKey) :
    db.Create b salt now user =
      (none,
       { rows := db.rows ++
           [{ user with Password := digest, ID := db.nextID, CreatedAt := now,
                        UpdatedAt := now }],
         seq := db.nextID,
         log := db.log ++ [.Create user.Email] }) := by
  have hany : (db.rows.any fun u => u.Email == user.Email) = false := by
    rw [List.any_eq_false]
    intro u hu
    simpa using hfresh u hu
  have hk : ¬ maxKey < db.nextID := not_lt.mpr hkey
  simp [DB.Create, User.BeforeSave, hpw, hhash, hany, hk]

theorem ne_empty_of_length (s : String) (h : 6 ≤ s.length) : s ≠ "" := by
  intro hs
  rw [hs] at h
  simp at h

/-- What a successful `Login` implies: the request passed validation, the store found a user
whose password matched, and the token is the one built for that user. -/
theorem Login_ok_inv (e : Echo) (b : Bcrypt) (hmac : HMAC) (h : AuthHandler) (now : Time)
    (req : LoginRequest) (db : DB) (tok : TokenString)
    (hl : (h.Login e b hmac now (some req) db).1 = .json 200 (.LoginResponse tok)) :
    ∃ user, (db.FirstWhereEmail req.Email).1 = some user ∧
      user.CheckPassword b req.Password = true ∧ tok = issuedToken hmac h now user := by
  cases hv : e.ValidateLogin req with
  | some err =>
    simp [AuthHandler.Login, hv] at hl
  | none =>
    rw [Login_validated _ _ _ _ _ _ _ hv] at hl
    cases hf : (db.FirstWhereEmail req.Email).1 with
    | none => simp [hf] at hl
    | some user =>
      by_cases hp : user.CheckPassword b req.Password = true
      · simp only [hf, hp, if_true, Outcome.json.injEq, Body.LoginResponse.injEq,
          true_and] at hl
        exact ⟨user, rfl, hp, hl.symm⟩
      · simp [hf, hp] at hl

/-- The middleware on a token that `Login` built, at instant `t`. -/
theorem JWTMiddleware_issuedToken {σ : Type} (hmac : HMAC) (a : Auth)
    (hkey : a.config.JWTSecret = a.handler.jwtSecret) (now t : Time) (user : User)
    (next : HandlerFunc σ) (c : Context) (s : σ)
    (hc : c.Authorization = issuedToken hmac a.handler now user) :
    a.JWTMiddleware hmac t next c s =
      if float64 (Unix (now + a.handler.tokenDuration)) = 0 ∨
          t < float64 (Unix (now + a.handler.tokenDuration)) * Second
      then next (c.Set (issuedParsed hmac a.handler now user)) s
      else (.err (.HTTPError 401 "Invalid token"), s) := by
  unfold Auth.JWTMiddleware
  simp only [hc, issuedToken_ne_empty, if_false, hkey, Parse_issuedToken]
  by_cases hcond : float64 (Unix (now + a.handler.tokenDuration)) = 0 ∨
      t < float64 (Unix (now + a.handler.tokenDuration)) * Second
  · simp only [hcond, if_true]
  · simp only [hcond, if_false]

/-- What `New` guarantees about the `Auth` it returns. -/
theorem New_ok (config : Config) (a : Auth) (h : New config = .ok a) :
    a.config.JWTSecret = a.handler.jwtSecret ∧
    a.handler.tokenDuration =
      (if config.TokenDuration = 0 then 24 * Hour else config.TokenDuration) := by
  obtain ⟨secret, duration, db⟩ := config
  unfold New at h
  split at h
  · cases h
  · split at h
    · cases h
    · injection h with h
      subst h
      simp [NewAuthHandler]
      split <;> simp_all

theorem New_ok_isInt64 (config : Config) (a : Auth) (h : New config = .ok a)
    (hd : isInt64 config.TokenDuration) : isInt64 a.handler.tokenDuration := by
  rw [(New_ok config a h).2]
  split
  · unfold isInt64 Hour Second
    omega
  · exact hd

theorem issuedParsed_sub (hmac : HMAC) (h : AuthHandler) (now : Time) (user : User)
    (hid : user.ID ≤ 2 ^ 53) :
    (issuedParsed hmac h now user).Claims.lookup "sub" = some (.num user.ID) := by
  simp [issuedParsed, List.lookup, float64_natCast user.ID hid]

/-- The first registration of a fresh email with a password that bcrypt hashes. -/
theorem Register_created (isEmail : String → Bool) (b : Bcrypt) (h : AuthHandler) (salt : Nat)
    (now : Time) (req : RegisterRequest) (db : DB) (digest : String)
    (hemail : req.Email ≠ "") (hsyn : isEmail req.Email = true)
    (hpw : 6 ≤ req.Password.length) (hname : req.Name ≠ "")
    (hfresh : ∀ u ∈ db.rows, u.Email ≠ req.Email)
    (hhash : b.GenerateFromPassword req.Password salt = .ok digest)
    (hkey : db.nextID ≤ maxKey) :
    h.Register (setupEcho isEmail) b salt now (some req) db =
      (.json 201 (.message "User registered successfully"),
       { rows := db.rows ++ [{ ID := db.nextID, CreatedAt := now, UpdatedAt := now,
                               DeletedAt := none, Email := req.Email, Password := digest,
                               Name := req.Name }],
         seq := db.nextID,
         log := db.log ++ [.FirstWhereEmail req.Email] ++ [.Create req.Email] }) := by
  have hv := ValidateRegister_ok isEmail req hemail hsyn hpw hname
  have hnone : (db.FirstWhereEmail req.Email).1 = none :=
    FirstWhereEmail_none db req.Email (fun v hv _ => hfresh v hv)
  have hc := Create_ok b salt now (db.FirstWhereEmail req.Email).2
    { ID := 0, CreatedAt := 0, UpdatedAt := 0, DeletedAt := none,
      Email := req.Email, Password := req.Password, Name := req.Name } digest
    (ne_empty_of_length _ hpw) hhash hfresh hkey
  rw [Register_validated _ _ _ _ _ _ _ hv, hnone]
  simp only [hc]
  rfl

/-! ### The key constraints are kept -/

theorem le_foldl_max (l : List Nat) (a : Nat) :
    a ≤ l.foldl max a ∧ ∀ x ∈ l, x ≤ l.foldl max a := by
  induction l generalizing a with
  | nil => simp
  | cons y ys ih =>
    simp only [List.foldl_cons, List.mem_cons, forall_eq_or_imp]
    obtain ⟨h1, h2⟩ := ih (max a y)
    exact ⟨le_trans (le_max_left a y) h1, le_trans (le_max_right a y) h1, h2⟩

/-- The key of the next row is above every key in the table and above the sequence. -/
theorem lt_nextID (db : DB) : db.seq < db.nextID ∧ ∀ u ∈ db.rows, u.ID < db.nextID := by
  obtain ⟨h1, h2⟩ := le_foldl_max (db.rows.map User.ID) db.seq
  refine ⟨Nat.lt_succ_of_le h1, ?_⟩
  intro u hu
  exact Nat.lt_succ_of_le (h2 u.ID (List.mem_map_of_mem _ hu))

/-- The rows after `Create`: unchanged on an error, one more row otherwise, with a key above
all others and an email that no other row holds. -/
theorem Create_rows (b : Bcrypt) (salt : Nat) (now : Time) (db : DB) (user : User) :
    (db.Create b salt now user).2.rows = db.rows ∨
    ∃ row, (db.Create b salt now user).2.rows = db.rows ++ [row] ∧
      (∀ u ∈ db.rows, u.ID < row.ID) ∧ (∀ u ∈ db.rows, u.Email ≠ row.Email) := by
  unfold DB.Create
  cases hs : user.BeforeSave b salt with
  | mk err saved =>
    cases err with
    | some e => exact Or.inl rfl
    | none =>
      simp only
      by_cases hany : (db.rows.any fun u => u.Email == saved.Email) = true
      · simp only [hany, if_true, true_or]
      · simp only [hany]
        by_cases hfull : maxKey < db.nextID
        · simp only [hfull, if_true]
          exact Or.inl (by simp)
        simp only [hfull]
        refine Or.inr ⟨_, rfl, (lt_nextID db).2, ?_⟩
        intro u hu heq
        apply hany
        rw [List.any_eq_true]
        exact ⟨u, hu, by simpa using heq⟩

/-- The key constraints of the table survive `Register`, whatever the request. -/
theorem Register_preserves_keys (e : Echo) (b : Bcrypt) (h : AuthHandler) (salt : Nat)
    (now : Time) (body : Option RegisterRequest) (db : DB) (hk : db.Keyed) :
    (h.Register e b salt now body db).2.Keyed := by
  have hrows : (h.Register e b salt now body db).2.rows = db.rows ∨
      ∃ row, (h.Register e b salt now body db).2.rows = db.rows ++ [row] ∧
        (∀ u ∈ db.rows, u.ID < row.ID) ∧ (∀ u ∈ db.rows, u.Email ≠ row.Email) := by
    cases body with
    | none => exact Or.inl rfl
    | some req =>
      cases hv : e.ValidateRegister req with
      | some err => simp [AuthHandler.Register, hv]
      | none =>
        rw [Register_validated _ _ _ _ _ _ _ hv]
        cases (db.FirstWhereEmail req.Email).1 with
        | some u => exact Or.inl (by simp [FirstWhereEmail_snd])
        | none =>
          have hc := Create_rows b salt now (db.FirstWhereEmail req.Email).2
            { ID := 0, CreatedAt := 0, UpdatedAt := 0, DeletedAt := none,
              Email := req.Email, Password := req.Password, Name := req.Name }
          simp only
          split <;> exact hc
  unfold DB.Keyed at hk ⊢
  rcases hrows with hr | ⟨row, hr, hid, hem⟩
  · rw [hr]
    exact hk
  · rw [hr]
    simp only [List.map_append, List.map_cons, List.map_nil]
    refine ⟨List.Nodup.append hk.1 (List.nodup_singleton _) ?_,
      List.Nodup.append hk.2 (List.nodup_singleton _) ?_⟩
    · rw [List.disjoint_singleton]
      intro hmem
      obtain ⟨u, hu, hue⟩ := List.mem_map.1 hmem
      have := hid u hu
      omega
    · rw [List.disjoint_singleton]
      intro hmem
      obtain ⟨u, hu, hue⟩ := List.mem_map.1 hmem
      exact hem u hu hue

/-! ## Claims -/

/-- C7: `New` returns an error exactly when `JWTSecret` is empty or `DB` is nil; otherwise it
returns an `Auth` whose handler holds the configured secret and database, with a token duration
of 24 hours when the configured one is zero and the configured one otherwise. -/
theorem New_error_iff_and_defaults (config : Config) :
    ((∃ msg, New config = .error msg) ↔ (config.JWTSecret = "" ∨ config.DB = none)) ∧
    ((config.JWTSecret ≠ "" ∧ config.DB ≠ none) → ∃ a, New config = .ok a) ∧
    (∀ a, New config = .ok a →
      a.handler.jwtSecret = config.JWTSecret ∧
      a.config.JWTSecret = config.JWTSecret ∧
      some a.handler.db = config.DB ∧
      a.handler.tokenDuration =
        (if config.TokenDuration = 0 then 24 * Hour else config.TokenDuration) ∧
      a.config.TokenDuration = a.handler.tokenDuration) := by
  obtain ⟨secret, duration, db⟩ := config
  by_cases hs : secret = ""
  · subst hs
    simp [New]
  · cases db with
    | none => simp [New, hs]
    | some d =>
      by_cases hd : duration = 0
      · subst hd
        simp only [New, hs, NewAuthHandler]
        refine ⟨by simp, by simp, ?_⟩
        intro a ha
        simp only [if_true, if_false, Except.ok.injEq] at ha
        subst ha
        simp
      · simp only [New, hs, hd, NewAuthHandler]
        refine ⟨by simp, by simp, ?_⟩
        intro a ha
        simp only [if_false, Except.ok.injEq] at ha
        subst ha
        simp

/-- C7, at the configuration of the test suite and at one with a zero duration. -/
theorem New_error_iff_and_defaults_witness :
    (∃ a, New { JWTSecret := "test-secret", TokenDuration := Hour, DB := some ⟨"memory"⟩ } =
      .ok a) ∧
    (∀ a, New { JWTSecret := "k", TokenDuration := 0, DB := some ⟨"memory"⟩ } = .ok a →
      a.handler.tokenDuration = 24 * Hour) :=
  ⟨(New_error_iff_and_defaults
      { JWTSecret := "test-secret", TokenDuration := Hour, DB := some ⟨"memory"⟩ }).2.1
      ⟨by decide, by decide⟩,
   fun a ha => ((New_error_iff_and_defaults
      { JWTSecret := "k", TokenDuration := 0, DB := some ⟨"memory"⟩ }).2.2 a ha).2.2.2.1⟩

/-- C5: the middleware calls the next handler exactly when the `Authorization` value is
non-empty and `jwt.Parse` accepts it under the configured secret (then once, on the context
that holds the parsed token), and a call implies that the signature is the one the secret
gives and that the expiry check passed; with an empty value, and with any parse error
whatever its kind, the outcome is a 401 that does not depend on the kind of failure and the
next handler is not called. -/
theorem JWTMiddleware_gate {σ : Type} (hmac : HMAC) (a : Auth) (now : Time)
    (next : HandlerFunc σ) (c : Context) (s : σ) (n : Nat) :
    ((a.JWTMiddleware hmac now (counting next) c (s, n)).2.2 = n + 1 ↔
      (c.Authorization ≠ .text "" ∧
        ∃ token, Parse hmac c.Authorization a.config.JWTSecret now = .ok token)) ∧
    ((a.JWTMiddleware hmac now (counting next) c (s, n)).2.2 = n + 1 →
      ∃ raw, c.Authorization = .compact raw ∧
        hmac raw.alg a.config.JWTSecret raw.claims = raw.signature ∧
        verifyExpiresAt (decodeClaims raw.claims) now = none) ∧
    (∀ token, c.Authorization ≠ .text "" →
      Parse hmac c.Authorization a.config.JWTSecret now = .ok token →
      a.JWTMiddleware hmac now (counting next) c (s, n) = counting next (c.Set token) (s, n)) ∧
    (c.Authorization = .text "" →
      a.JWTMiddleware hmac now (counting next) c (s, n) =
        (.err (.HTTPError 401 "Missing authorization header"), (s, n))) ∧
    (∀ e, c.Authorization ≠ .text "" →
      Parse hmac c.Authorization a.config.JWTSecret now = .error e →
      a.JWTMiddleware hmac now (counting next) c (s, n) =
        (.err (.HTTPError 401 "Invalid token"), (s, n))) ∧
    ((a.JWTMiddleware hmac now (counting next) c (s, n)).2.2 ≠ n + 1 →
      (a.JWTMiddleware hmac now (counting next) c (s, n)).1.status = some 401 ∧
      (a.JWTMiddleware hmac now (counting next) c (s, n)).2 = (s, n)) := by
  by_cases he : c.Authorization = .text ""
  · simp [Auth.JWTMiddleware, he, Outcome.status, DefaultHTTPErrorHandler]
  · cases hp : Parse hmac c.Authorization a.config.JWTSecret now with
    | error e => simp [Auth.JWTMiddleware, he, hp, Outcome.status, DefaultHTTPErrorHandler]
    | ok token =>
      obtain ⟨raw, hraw, _, hsig, hexp, _, _⟩ := Parse_ok_inv _ _ _ _ _ hp
      have h2 : ∃ raw, c.Authorization = .compact raw ∧
          hmac raw.alg a.config.JWTSecret raw.claims = raw.signature ∧
          verifyExpiresAt (decodeClaims raw.claims) now = none := ⟨raw, hraw, hsig, hexp⟩
      simp [Auth.JWTMiddleware, he, hp, counting, h2]

/-- C5, at a garbage header on the profile route: a 401, the store untouched, the next
handler not counted. -/
theorem JWTMiddleware_gate_witness :
    (Auth.JWTMiddleware refHMAC testAuth 0 (counting testAuth.handler.GetProfile)
        { Authorization := .text "garbage", user := none } (emptyDB, 0)) =
      (.err (.HTTPError 401 "Invalid token"), (emptyDB, 0)) :=
  (JWTMiddleware_gate refHMAC testAuth 0 testAuth.handler.GetProfile
      { Authorization := .text "garbage", user := none } emptyDB 0).2.2.2.2.1
    .malformed (by decide) rfl

/-- C1: for every store and every two login requests that pass validation, one naming a
registered email with a password that matches none of its live rows and one naming an email
without a live row, `Login` ends the same way: the error 401 "Invalid email or password", no
token, and the rows and the key sequence of the store as they were. -/
theorem Login_failures_indistinguishable (isEmail : String → Bool) (b : Bcrypt) (hmac : HMAC)
    (h : AuthHandler) (now1 now2 : Time) (db : DB) (r1 r2 : LoginRequest) (u : User)
    (hv1e : r1.Email ≠ "") (hv1s : isEmail r1.Email = true) (hv1p : r1.Password ≠ "")
    (hv2e : r2.Email ≠ "") (hv2s : isEmail r2.Email = true) (hv2p : r2.Password ≠ "")
    (hu : u ∈ db.rows) (hlive : u.DeletedAt = none) (hemail : u.Email = r1.Email)
    (hwrong : ∀ v ∈ db.rows, v.DeletedAt = none → v.Email = r1.Email →
      v.CheckPassword b r1.Password = false)
    (habsent : ∀ v ∈ db.rows, v.DeletedAt = none → v.Email ≠ r2.Email) :
    (h.Login (setupEcho isEmail) b hmac now1 (some r1) db).1 =
        .err (.HTTPError 401 "Invalid email or password") ∧
    (h.Login (setupEcho isEmail) b hmac now2 (some r2) db).1 =
        (h.Login (setupEcho isEmail) b hmac now1 (some r1) db).1 ∧
    (h.Login (setupEcho isEmail) b hmac now1 (some r1) db).1.status = some 401 ∧
    (h.Login (setupEcho isEmail) b hmac now1 (some r1) db).2.rows = db.rows ∧
    (h.Login (setupEcho isEmail) b hmac now1 (some r1) db).2.seq = db.seq ∧
    (h.Login (setupEcho isEmail) b hmac now2 (some r2) db).2.rows = db.rows ∧
    (h.Login (setupEcho isEmail) b hmac now2 (some r2) db).2.seq = db.seq := by
  obtain ⟨v, hv⟩ := FirstWhereEmail_isSome db r1.Email u hu hlive hemail
  obtain ⟨hvm, hvl, hve⟩ := FirstWhereEmail_some db r1.Email v hv
  have hvw := hwrong v hvm hvl hve
  rw [Login_validated _ _ _ _ _ _ _ (ValidateLogin_ok isEmail r1 hv1e hv1s hv1p),
    Login_validated _ _ _ _ _ _ _ (ValidateLogin_ok isEmail r2 hv2e hv2s hv2p),
    hv, FirstWhereEmail_none db r2.Email habsent]
  simp [hvw, FirstWhereEmail_snd, Outcome.status, DefaultHTTPErrorHandler]

/-- C1, at the store of the test suite after one registration: a wrong password for the
registered email and an unknown email. -/
theorem Login_failures_indistinguishable_witness :
    (testAuth.handler.Login testEcho refBcrypt refHMAC 5 (some ⟨"nobody@example.com", "x"⟩)
        oneUserDB).1 =
      (testAuth.handler.Login testEcho refBcrypt refHMAC 4
        (some ⟨"test@example.com", "wrongpassword"⟩) oneUserDB).1 :=
  (Login_failures_indistinguishable refIsEmail refBcrypt refHMAC testAuth.handler 4 5 oneUserDB
    ⟨"test@example.com", "wrongpassword"⟩ ⟨"nobody@example.com", "x"⟩ testUser
    (by decide) (by decide) (by decide) (by decide) (by decide) (by decide)
    (by decide) (by decide) (by decide) (by decide) (by decide)).2.1

/-- C9: whenever `GetProfile` answers with a JSON body, the status is 200 and the body is the
serialisation `MarshalUser` of a live row of the store with the key of the token, and that is
what it answers whenever the lookup finds a row; the serialised object has the keys of
`gorm.Model`, `email` and `name`, holds the email and the name of that row, and has no key for
`Password`; it is the same for users that differ only in `Password`, and so is the whole
outcome of `GetProfile` on stores that differ only in the `Password` column. -/
theorem GetProfile_payload_without_password (h : AuthHandler) (c : Context) (db : DB)
    (f : User → String) :
    (∀ code body, (h.GetProfile c db).1 = .json code body →
      code = 200 ∧
      ∃ token userID user, c.user = some token ∧
        token.Claims.lookup "sub" = some (.num userID) ∧
        user ∈ db.rows ∧ user.DeletedAt = none ∧ user.ID = uint userID ∧
        body = .user (MarshalUser user) ∧
        body = .user
          [("ID", .num user.ID), ("CreatedAt", .time user.CreatedAt),
           ("UpdatedAt", .time user.UpdatedAt),
           ("DeletedAt", match user.DeletedAt with
              | none => .null
              | some t => .time t),
           ("email", .str user.Email), ("name", .str user.Name)]) ∧
    (∀ token userID user, c.user = some token →
      token.Claims.lookup "sub" = some (.num userID) →
      (db.FirstByID (uint userID)).1 = some user →
      (h.GetProfile c db).1 = .json 200 (.user (MarshalUser user)) ∧
      (MarshalUser user).map Prod.fst =
        ["ID", "CreatedAt", "UpdatedAt", "DeletedAt", "email", "name"] ∧
      (MarshalUser user).lookup "email" = some (.str user.Email) ∧
      (MarshalUser user).lookup "name" = some (.str user.Name) ∧
      (MarshalUser user).lookup "Password" = none ∧
      (MarshalUser user).lookup "password" = none ∧
      ∀ p, MarshalUser { user with Password := p } = MarshalUser user) ∧
    (h.GetProfile c { db with rows := db.rows.map fun v => { v with Password := f v } }).1 =
      (h.GetProfile c db).1 := by
  refine ⟨?_, ?_, ?_⟩
  · intro code body hout
    rw [GetProfile_fst] at hout
    cases hu : c.user with
    | none => simp [hu] at hout
    | some token =>
      simp only [hu] at hout
      cases hl : List.lookup "sub" token.Claims with
      | none => simp [hl] at hout
      | some v =>
        cases v with
        | num userID =>
          simp only [hl] at hout
          cases hf : (db.FirstByID (uint userID)).1 with
          | none => simp [hf] at hout
          | some user =>
            simp only [hf, Outcome.json.injEq] at hout
            obtain ⟨hm, hlive, hid⟩ := FirstByID_some db (uint userID) user hf
            exact ⟨hout.1.symm, token, userID, user, rfl, hl, hm, hlive, hid, hout.2.symm,
              hout.2.symm⟩
        | null => simp [hl] at hout
        | str t => simp [hl] at hout
        | time t => simp [hl] at hout
  · intro token userID user hu hl hf
    refine ⟨?_, rfl, by simp [MarshalUser, List.lookup], by simp [MarshalUser, List.lookup],
      by simp [MarshalUser, List.lookup], by simp [MarshalUser, List.lookup], fun _ => rfl⟩
    rw [GetProfile_fst]
    simp only [hu, hl, hf]
  · have key : ∀ id, (DB.FirstByID
        { db with rows := db.rows.map fun v => { v with Password := f v } } id).1 =
        ((db.FirstByID id).1).map fun v => { v with Password := f v } := by
      intro id
      simp only [DB.FirstByID]
      rw [← firstByPK_map (fun v => { v with Password := f v }) (fun _ => rfl),
        List.filter_map]
      rfl
    rw [GetProfile_fst, GetProfile_fst]
    cases c.user with
    | none => rfl
    | some token =>
      simp only
      generalize List.lookup "sub" token.Claims = l
      cases l with
      | none => rfl
      | some v =>
        cases v with
        | num userID =>
          simp only [key]
          cases (db.FirstByID (uint userID)).1 with
          | none => rfl
          | some w => rfl
        | null => rfl
        | str s => rfl
        | time t => rfl

/-- C9, at the profile of the user of the test suite: the answer is the serialised row, and
it holds the email but no password. -/
theorem GetProfile_payload_without_password_witness :
    (testAuth.handler.GetProfile
        { Authorization := .text "",
          user := some (issuedParsed refHMAC testAuth.handler 1700000000500000000 testUser) }
        oneUserDB).1 = .json 200 (.user (MarshalUser testUser)) ∧
    (MarshalUser testUser).lookup "email" = some (.str "test@example.com") ∧
    (MarshalUser testUser).lookup "Password" = none :=
  have hw := (GetProfile_payload_without_password testAuth.handler
    { Authorization := .text "",
      user := some (issuedParsed refHMAC testAuth.handler 1700000000500000000 testUser) }
    oneUserDB (fun _ => "")).2.1
    (issuedParsed refHMAC testAuth.handler 1700000000500000000 testUser) 1 testUser
    rfl (by decide) (by decide)
  ⟨hw.1, hw.2.2.1, hw.2.2.2.2.1⟩

/-- C10 fails as stated: bcrypt refuses a password of 73 bytes, and `BeforeSave` then returns
the error and leaves the user as it was. -/
theorem BeforeSave_fails_on_long_password :
    refBcrypt.Lawful ∧ longPasswordUser.Password ≠ "" ∧
    longPasswordUser.BeforeSave refBcrypt 0 =
      (some "bcrypt: password length exceeds 72 bytes", longPasswordUser) :=
  ⟨refBcrypt_lawful, by decide, by decide⟩

/-- C10, amended: `BeforeSave` with an empty `Password` returns no error and leaves the user
unchanged; with a non-empty `Password` that bcrypt hashes it returns no error, replaces
`Password` by the digest, which `CheckPassword` accepts for the old value, and leaves every
other field; when bcrypt refuses, the hook returns that error and leaves the user unchanged;
and a second run hashes the stored digest, not the plaintext. -/
theorem BeforeSave_hashes_nonempty_password (b : Bcrypt) (hb : b.Lawful) (salt salt2 : Nat)
    (u : User) :
    (u.Password = "" → u.BeforeSave b salt = (none, u)) ∧
    (∀ digest, u.Password ≠ "" → b.GenerateFromPassword u.Password salt = .ok digest →
      u.BeforeSave b salt = (none, { u with Password := digest }) ∧
      (u.BeforeSave b salt).2.CheckPassword b u.Password = true ∧
      (u.BeforeSave b salt).2.ID = u.ID ∧
      (u.BeforeSave b salt).2.Email = u.Email ∧
      (u.BeforeSave b salt).2.Name = u.Name) ∧
    (∀ err, u.Password ≠ "" → b.GenerateFromPassword u.Password salt = .error err →
      u.BeforeSave b salt = (some err, u)) ∧
    (∀ digest digest2, u.Password ≠ "" → b.GenerateFromPassword u.Password salt = .ok digest →
      digest ≠ "" → b.GenerateFromPassword digest salt2 = .ok digest2 →
      (u.BeforeSave b salt).2.BeforeSave b salt2 = (none, { u with Password := digest2 }) ∧
      ((u.BeforeSave b salt).2.BeforeSave b salt2).2.CheckPassword b digest = true) := by
  refine ⟨?_, ?_, ?_, ?_⟩
  · intro h
    simp [User.BeforeSave, h]
  · intro digest hne hd
    have hc := hb _ _ _ hd
    simp [User.BeforeSave, hne, hd, User.CheckPassword, hc]
  · intro err hne hd
    simp [User.BeforeSave, hne, hd]
  · intro digest digest2 hne hd hdne hd2
    have hc := hb _ _ _ hd2
    simp [User.BeforeSave, hne, hd, hdne, hd2, User.CheckPassword, hc]

/-- C10, amended, at the password of the test suite: hashed once, then hashed again. -/
theorem BeforeSave_hashes_nonempty_password_witness :
    ({ testUser with Password := "password123" } : User).BeforeSave refBcrypt 0 =
      (none, testUser) ∧
    (testUser.BeforeSave refBcrypt 1).2.Password = "$$$password123" :=
  ⟨((BeforeSave_hashes_nonempty_password refBcrypt refBcrypt_lawful 0 1
      { testUser with Password := "password123" }).2.1 "$password123"
      (by decide) rfl).1,
   by decide⟩

/-- C2 fails as stated: a request that passes validation but carries a password of 73 bytes
is answered 500 both times, and no row is stored; and on a store in which the largest key is
taken, a request with a fresh email and a short password is answered 500 as well. -/
theorem Register_twice_long_password :
    (refIsEmail "a@b.com" = true ∧ 6 ≤ longPassword.length ∧
     (testAuth.handler.Register testEcho refBcrypt 0 1
       (some ⟨"a@b.com", longPassword, "A"⟩) emptyDB).1 =
         .err (.HTTPError 500 "Failed to create user") ∧
     (testAuth.handler.Register testEcho refBcrypt 0 2 (some ⟨"a@b.com", longPassword, "A"⟩)
       (testAuth.handler.Register testEcho refBcrypt 0 1
         (some ⟨"a@b.com", longPassword, "A"⟩) emptyDB).2).1 =
         .err (.HTTPError 500 "Failed to create user") ∧
     (testAuth.handler.Register testEcho refBcrypt 0 1
       (some ⟨"a@b.com", longPassword, "A"⟩) emptyDB).2.rows = []) ∧
    ((testAuth.handler.Register testEcho refBcrypt 0 1
       (some ⟨"a@b.com", "secret1", "A"⟩) lastKeyDB).1 =
         .err (.HTTPError 500 "Failed to create user") ∧
     (testAuth.handler.Register testEcho refBcrypt 0 1
       (some ⟨"a@b.com", "secret1", "A"⟩) lastKeyDB).2.rows = lastKeyDB.rows) := by
  decide

/-- C2, amended: for every store that has a key left and every request that passes
validation, whose email no row holds and whose password bcrypt hashes, two calls of `Register`
in sequence give 201 and then 409; the first appends exactly one row (fresh key, the digest as password), the second leaves
rows and key sequence as they are, and afterwards exactly one row holds that email. -/
theorem Register_twice_created_then_conflict (isEmail : String → Bool) (b : Bcrypt)
    (h : AuthHandler) (salt1 salt2 : Nat) (now1 now2 : Time) (req : RegisterRequest) (db : DB)
    (digest : String)
    (hemail : req.Email ≠ "") (hsyn : isEmail req.Email = true)
    (hpw : 6 ≤ req.Password.length) (hname : req.Name ≠ "")
    (hfresh : ∀ u ∈ db.rows, u.Email ≠ req.Email)
    (hhash : b.GenerateFromPassword req.Password salt1 = .ok digest)
    (hkey : db.nextID ≤ maxKey) :
    (h.Register (setupEcho isEmail) b salt1 now1 (some req) db).1 =
      .json 201 (.message "User registered successfully") ∧
    (h.Register (setupEcho isEmail) b salt1 now1 (some req) db).2.rows =
      db.rows ++ [{ ID := db.nextID, CreatedAt := now1, UpdatedAt := now1, DeletedAt := none,
                    Email := req.Email, Password := digest, Name := req.Name }] ∧
    (h.Register (setupEcho isEmail) b salt2 now2 (some req)
      (h.Register (setupEcho isEmail) b salt1 now1 (some req) db).2).1 =
      .err (.HTTPError 409 "Email already exists") ∧
    (h.Register (setupEcho isEmail) b salt2 now2 (some req)
      (h.Register (setupEcho isEmail) b salt1 now1 (some req) db).2).2.rows =
      (h.Register (setupEcho isEmail) b salt1 now1 (some req) db).2.rows ∧
    (h.Register (setupEcho isEmail) b salt2 now2 (some req)
      (h.Register (setupEcho isEmail) b salt1 now1 (some req) db).2).2.seq =
      (h.Register (setupEcho isEmail) b salt1 now1 (some req) db).2.seq ∧
    ((h.Register (setupEcho isEmail) b salt2 now2 (some req)
      (h.Register (setupEcho isEmail) b salt1 now1 (some req) db).2).2.rows.filter
        (fun u => u.Email == req.Email)).length = 1 := by
  have hv := ValidateRegister_ok isEmail req hemail hsyn hpw hname
  have h1 := Register_created isEmail b h salt1 now1 req db digest hemail hsyn hpw hname
    hfresh hhash hkey
  rw [h1]
  simp only
  obtain ⟨v, hfound⟩ := FirstWhereEmail_isSome
    { rows := db.rows ++ [{ ID := db.nextID, CreatedAt := now1, UpdatedAt := now1,
                            DeletedAt := none, Email := req.Email, Password := digest,
                            Name := req.Name }],
      seq := db.nextID,
      log := db.log ++ [.FirstWhereEmail req.Email] ++ [.Create req.Email] } req.Email
    { ID := db.nextID, CreatedAt := now1, UpdatedAt := now1, DeletedAt := none,
      Email := req.Email, Password := digest, Name := req.Name } (by simp) rfl rfl
  rw [Register_validated _ _ _ _ _ _ _ hv, hfound]
  have hfil : db.rows.filter (fun u => u.Email == req.Email) = [] := by
    rw [List.filter_eq_nil_iff]
    intro u hu
    simpa using hfresh u hu
  simp [FirstWhereEmail_snd, List.filter_append, hfil]

/-- C2, amended, at the request of the test suite on the empty store. -/
theorem Register_twice_created_then_conflict_witness :
    (testAuth.handler.Register testEcho refBcrypt 0 2
      (some ⟨"test@example.com", "password123", "Test User"⟩)
      (testAuth.handler.Register testEcho refBcrypt 0 1
        (some ⟨"test@example.com", "password123", "Test User"⟩) emptyDB).2).1 =
      .err (.HTTPError 409 "Email already exists") :=
  (Register_twice_created_then_conflict refIsEmail refBcrypt testAuth.handler 0 0 1 2
    ⟨"test@example.com", "password123", "Test User"⟩ emptyDB "$password123"
    (by decide) (by decide) (by decide) (by decide) (by decide) rfl (by decide)).2.2.1

/-- C4 fails as stated: a token issued half a second past a full second, for one hour, is
refused 0.2 seconds after its expiry second, which is 0.3 seconds before the hour has
passed; and the token issued for the key 2^53 + 1 carries, once parsed, the key 2^53. -/
theorem issued_token_rejected_before_duration_elapsed :
    ((testAuth.handler.Login testEcho refBcrypt refHMAC 1700000000500000000
        (some ⟨"test@example.com", "password123"⟩) oneUserDB).1 =
      .json 200 (.LoginResponse
        (issuedToken refHMAC testAuth.handler 1700000000500000000 testUser)) ∧
     (1700000000500000000 : Int) ≤ 1700003600200000000 ∧
     (1700003600200000000 : Int) < 1700000000500000000 + testAuth.handler.tokenDuration ∧
     (testAuth.JWTMiddleware refHMAC 1700003600200000000 testAuth.handler.GetProfile
        { Authorization := issuedToken refHMAC testAuth.handler 1700000000500000000 testUser,
          user := none } oneUserDB) =
      (.err (.HTTPError 401 "Invalid token"), oneUserDB)) ∧
    ((testAuth.handler.Login testEcho refBcrypt refHMAC 1700000000500000000
        (some ⟨"a@b.com", "secret1"⟩) bigIDDB).1 =
      .json 200 (.LoginResponse
        (issuedToken refHMAC testAuth.handler 1700000000500000000 bigIDUser)) ∧
     (match Parse refHMAC (issuedToken refHMAC testAuth.handler 1700000000500000000 bigIDUser)
        testAuth.config.JWTSecret 1700000000500000000 with
      | .ok token => token.Claims.lookup "sub"
      | .error _ => none) = some (.num (2 ^ 53)) ∧
     bigIDUser.ID = 2 ^ 53 + 1) := by
  decide

/-- C4, amended: let `Login` issue a token for a user whose key is at most 2^53, at an instant
`now` and for the configured duration, both in the `int64` range. With the same secret the
middleware passes the token on at every instant before the expiry second
`Unix (now + duration)`, and the parsed claims carry the key of the user and that second; at
the expiry second and at every later instant (so at every instant from `now + duration` on)
it answers 401 "Invalid token", unless the expiry second is the zero second of the epoch. -/
theorem issued_token_valid_until_expiry_second (e : Echo) (b : Bcrypt) (hmac : HMAC)
    (config : Config) (a : Auth) (now : Time) (req : LoginRequest) (db : DB) (user : User)
    (tok : TokenString)
    (hnew : New config = .ok a)
    (hfound : (db.FirstWhereEmail req.Email).1 = some user)
    (hlogin : (a.handler.Login e b hmac now (some req) db).1 =
      .json 200 (.LoginResponse tok))
    (hid : user.ID ≤ 2 ^ 53) (hnow : isInt64 now) (hd : isInt64 config.TokenDuration) :
    (∀ (σ : Type) (next : HandlerFunc σ) (c : Context) (s : σ) (t : Time),
      c.Authorization = tok → t < Unix (now + a.handler.tokenDuration) * Second →
      ∃ token, token.Claims.lookup "sub" = some (.num user.ID) ∧
        token.Claims.lookup "exp" = some (.num (Unix (now + a.handler.tokenDuration))) ∧
        a.JWTMiddleware hmac t next c s = next (c.Set token) s) ∧
    (∀ (σ : Type) (next : HandlerFunc σ) (c : Context) (s : σ) (t : Time),
      c.Authorization = tok → Unix (now + a.handler.tokenDuration) ≠ 0 →
      Unix (now + a.handler.tokenDuration) * Second ≤ t →
      a.JWTMiddleware hmac t next c s = (.err (.HTTPError 401 "Invalid token"), s)) ∧
    Unix (now + a.handler.tokenDuration) * Second ≤ now + a.handler.tokenDuration := by
  obtain ⟨u, hf, _, htok⟩ := Login_ok_inv e b hmac a.handler now req db tok hlogin
  rw [hfound] at hf
  injection hf with hf
  subst hf
  subst htok
  have hkey := (New_ok config a hnew).1
  have hexp := float64_Unix now a.handler.tokenDuration hnow (New_ok_isInt64 config a hnew hd)
  refine ⟨?_, ?_, Unix_mul_le _⟩
  · intro σ next c s t hc ht
    refine ⟨issuedParsed hmac a.handler now user, issuedParsed_sub hmac a.handler now user hid,
      ?_, ?_⟩
    · simp [issuedParsed, List.lookup, hexp]
    · rw [JWTMiddleware_issuedToken hmac a hkey now t user next c s hc, hexp]
      simp [ht]
  · intro σ next c s t hc h0 ht
    rw [JWTMiddleware_issuedToken hmac a hkey now t user next c s hc, hexp]
    have : ¬ t < Unix (now + a.handler.tokenDuration) * Second := not_lt.mpr ht
    simp [h0, this]

/-- C4, amended, at the token of the test suite: refused at its expiry second. -/
theorem issued_token_valid_until_expiry_second_witness :
    testAuth.JWTMiddleware refHMAC 1700003600000000000 testAuth.handler.GetProfile
        { Authorization := issuedToken refHMAC testAuth.handler 1700000000500000000 testUser,
          user := none } oneUserDB =
      (.err (.HTTPError 401 "Invalid token"), oneUserDB) :=
  (issued_token_valid_until_expiry_second testEcho refBcrypt refHMAC testConfig testAuth
    1700000000500000000 ⟨"test@example.com", "password123"⟩ oneUserDB testUser
    (issuedToken refHMAC testAuth.handler 1700000000500000000 testUser)
    rfl (by decide) (by decide) (by decide) (by decide) (by decide)).2.1
    DB testAuth.handler.GetProfile
    { Authorization := issuedToken refHMAC testAuth.handler 1700000000500000000 testUser,
      user := none } oneUserDB 1700003600000000000 rfl (by decide) (by decide)

/-- C3 fails as stated, in three ways: a request that passes validation with a password of 73
bytes is answered 500 and the login that follows 401; on a store in which the largest key is
taken the same happens to a request with a short password; and under an accepted
configuration with a duration of one nanosecond the token of a successful login is refused by
the middleware at the very instant of the login. -/
theorem Register_then_Login_can_fail :
    ((testAuth.handler.Register testEcho refBcrypt 0 1
        (some ⟨"a@b.com", longPassword, "A"⟩) emptyDB).1 =
      .err (.HTTPError 500 "Failed to create user") ∧
     (testAuth.handler.Login testEcho refBcrypt refHMAC 2 (some ⟨"a@b.com", longPassword⟩)
        (testAuth.handler.Register testEcho refBcrypt 0 1
          (some ⟨"a@b.com", longPassword, "A"⟩) emptyDB).2).1 =
      .err (.HTTPError 401 "Invalid email or password")) ∧
    ((testAuth.handler.Register testEcho refBcrypt 0 1
        (some ⟨"a@b.com", "secret1", "A"⟩) lastKeyDB).1 =
      .err (.HTTPError 500 "Failed to create user") ∧
     (testAuth.handler.Login testEcho refBcrypt refHMAC 2 (some ⟨"a@b.com", "secret1"⟩)
        (testAuth.handler.Register testEcho refBcrypt 0 1
          (some ⟨"a@b.com", "secret1", "A"⟩) lastKeyDB).2).1 =
      .err (.HTTPError 401 "Invalid email or password")) ∧
    (New shortConfig = .ok shortAuth ∧
     (shortAuth.handler.Login testEcho refBcrypt refHMAC 1700000000500000000
        (some ⟨"test@example.com", "password123"⟩) oneUserDB).1 =
      .json 200 (.LoginResponse
        (issuedToken refHMAC shortAuth.handler 1700000000500000000 testUser)) ∧
     shortAuth.JWTMiddleware refHMAC 1700000000500000000 shortAuth.handler.GetProfile
        { Authorization := issuedToken refHMAC shortAuth.handler 1700000000500000000 testUser,
          user := none } oneUserDB =
      (.err (.HTTPError 401 "Invalid token"), oneUserDB)) :=
  ⟨by decide, by decide, rfl, by decide, by decide⟩

/-- C3, amended: for every accepted configuration whose duration is an `int64`, every store
that has a key left and every request that passes validation, whose email no row holds and whose password bcrypt
hashes, `Register` answers 201 and a `Login` that follows with the same email and password, at
an `int64` instant, answers 200 with a non-empty token; the middleware passes that token on at
every instant before its expiry second, and the login instant is one of them when the
duration is at least one second. -/
theorem Register_then_Login_token_accepted (isEmail : String → Bool) (b : Bcrypt)
    (hmac : HMAC) (config : Config) (a : Auth) (salt : Nat) (tReg tLogin : Time)
    (req : RegisterRequest) (db : DB) (digest : String)
    (hb : b.Lawful) (hnew : New config = .ok a)
    (hemail : req.Email ≠ "") (hsyn : isEmail req.Email = true)
    (hpw : 6 ≤ req.Password.length) (hname : req.Name ≠ "")
    (hfresh : ∀ u ∈ db.rows, u.Email ≠ req.Email)
    (hhash : b.GenerateFromPassword req.Password salt = .ok digest)
    (hkey : db.nextID ≤ maxKey)
    (hnow : isInt64 tLogin) (hd : isInt64 config.TokenDuration) :
    (a.handler.Register (setupEcho isEmail) b salt tReg (some req) db).1 =
      .json 201 (.message "User registered successfully") ∧
    ∃ tok,
      (a.handler.Login (setupEcho isEmail) b hmac tLogin (some ⟨req.Email, req.Password⟩)
        (a.handler.Register (setupEcho isEmail) b salt tReg (some req) db).2).1 =
        .json 200 (.LoginResponse tok) ∧
      tok ≠ .text "" ∧
      (∀ (σ : Type) (next : HandlerFunc σ) (c : Context) (s : σ) (t : Time),
        c.Authorization = tok → t < Unix (tLogin + a.handler.tokenDuration) * Second →
        ∃ token, a.JWTMiddleware hmac t next c s = next (c.Set token) s) ∧
      (Second ≤ a.handler.tokenDuration →
        tLogin < Unix (tLogin + a.handler.tokenDuration) * Second) := by
  rw [Register_created isEmail b a.handler salt tReg req db digest hemail hsyn hpw hname
    hfresh hhash hkey]
  refine ⟨rfl, ?_⟩
  have hvl : (setupEcho isEmail).ValidateLogin ⟨req.Email, req.Password⟩ = none :=
    ValidateLogin_ok isEmail _ hemail hsyn (ne_empty_of_length _ hpw)
  have hfound := FirstWhereEmail_of_unique
    { rows := db.rows ++ [{ ID := db.nextID, CreatedAt := tReg, UpdatedAt := tReg,
                            DeletedAt := none, Email := req.Email, Password := digest,
                            Name := req.Name }],
      seq := db.nextID,
      log := db.log ++ [.FirstWhereEmail req.Email] ++ [.Create req.Email] } req.Email
    { ID := db.nextID, CreatedAt := tReg, UpdatedAt := tReg, DeletedAt := none,
      Email := req.Email, Password := digest, Name := req.Name } (by simp) rfl rfl
    (by
      intro v hv _ hve
      simp only [List.mem_append, List.mem_singleton] at hv
      rcases hv with hv | hv
      · exact absurd hve (hfresh v hv)
      · exact hv)
  have hcheck : User.CheckPassword b
      { ID := db.nextID, CreatedAt := tReg, UpdatedAt := tReg, DeletedAt := none,
        Email := req.Email, Password := digest, Name := req.Name } req.Password = true := by
    simp [User.CheckPassword, hb _ _ _ hhash]
  have hkey := (New_ok config a hnew).1
  have hexp := float64_Unix tLogin a.handler.tokenDuration hnow
    (New_ok_isInt64 config a hnew hd)
  refine ⟨issuedToken hmac a.handler tLogin
    { ID := db.nextID, CreatedAt := tReg, UpdatedAt := tReg, DeletedAt := none,
      Email := req.Email, Password := digest, Name := req.Name }, ?_,
    issuedToken_ne_empty _ _ _ _, ?_, ?_⟩
  · rw [Login_validated _ _ _ _ _ _ _ hvl]
    simp only [hfound, hcheck, if_true]
  · intro σ next c s t hc ht
    refine ⟨issuedParsed hmac a.handler tLogin
      { ID := db.nextID, CreatedAt := tReg, UpdatedAt := tReg, DeletedAt := none,
        Email := req.Email, Password := digest, Name := req.Name }, ?_⟩
    rw [JWTMiddleware_issuedToken hmac a hkey tLogin t _ next c s hc, hexp]
    simp [ht]
  · intro hsec
    have h1 := lt_Unix_mul (tLogin + a.handler.tokenDuration)
    have h2 : tLogin + Second ≤ tLogin + a.handler.tokenDuration := by
      have := hsec
      linarith
    linarith

/-- C3, amended, at the scenario of the test suite: registration, then login. -/
theorem Register_then_Login_token_accepted_witness :
    (testAuth.handler.Register testEcho refBcrypt 0 1
      (some ⟨"test@example.com", "password123", "Test User"⟩) emptyDB).1 =
      .json 201 (.message "User registered successfully") :=
  (Register_then_Login_token_accepted refIsEmail refBcrypt refHMAC testConfig testAuth 0 1
    1700000000500000000 ⟨"test@example.com", "password123", "Test User"⟩ emptyDB
    "$password123" refBcrypt_lawful rfl (by decide) (by decide) (by decide) (by decide)
    (by decide) rfl (by decide) (by decide) (by decide)).1

/-- C8 fails as stated: in a store that holds the keys 2^53 and 2^53 + 1, the token that
`Login` issues for the user with the key 2^53 + 1 makes the profile route answer 200 with the
record of the other user; and the token of the user of the test suite, presented at its expiry
second, is answered 401. -/
theorem GetProfile_returns_another_user :
    ((testAuth.handler.Login testEcho refBcrypt refHMAC 1700000000500000000
        (some ⟨"a@b.com", "secret1"⟩) bigIDDB).1 =
      .json 200 (.LoginResponse
        (issuedToken refHMAC testAuth.handler 1700000000500000000 bigIDUser)) ∧
     (testAuth.profileRoute refHMAC 1700000001000000000
        { Authorization := issuedToken refHMAC testAuth.handler 1700000000500000000 bigIDUser,
          user := none } bigIDDB).1 =
      .json 200 (.user (MarshalUser neighbourUser)) ∧
     MarshalUser neighbourUser ≠ MarshalUser bigIDUser) ∧
    ((testAuth.handler.Login testEcho refBcrypt refHMAC 1700000000500000000
        (some ⟨"test@example.com", "password123"⟩) oneUserDB).1 =
      .json 200 (.LoginResponse
        (issuedToken refHMAC testAuth.handler 1700000000500000000 testUser)) ∧
     (testAuth.profileRoute refHMAC 1700003600000000000
        { Authorization := issuedToken refHMAC testAuth.handler 1700000000500000000 testUser,
          user := none } oneUserDB).1 =
      .err (.HTTPError 401 "Invalid token")) := by
  decide

/-- C8, amended: let `Login` issue a token for a user whose key is at most 2^53 (instant and
duration in the `int64` range), and let the token be presented on the profile route before its
expiry second. If the store then holds a live row with that key, the only one under the
primary key, the answer is 200 with the record of that row; if it holds no live row with that
key, the answer is 404. -/
theorem GetProfile_returns_token_subject (e : Echo) (b : Bcrypt) (hmac : HMAC)
    (config : Config) (a : Auth) (tLogin t : Time) (req : LoginRequest) (db0 db : DB)
    (u0 : User) (tok : TokenString) (cu : Option Token)
    (hnew : New config = .ok a)
    (hfound : (db0.FirstWhereEmail req.Email).1 = some u0)
    (hlogin : (a.handler.Login e b hmac tLogin (some req) db0).1 =
      .json 200 (.LoginResponse tok))
    (hid : u0.ID ≤ 2 ^ 53) (hnow : isInt64 tLogin) (hd : isInt64 config.TokenDuration)
    (ht : t < Unix (tLogin + a.handler.tokenDuration) * Second) :
    (∀ user ∈ db.rows, user.DeletedAt = none → user.ID = u0.ID →
      (∀ v ∈ db.rows, v.DeletedAt = none → v.ID = user.ID → v = user) →
      (a.profileRoute hmac t { Authorization := tok, user := cu } db).1 =
        .json 200 (.user (MarshalUser user))) ∧
    ((∀ v ∈ db.rows, v.DeletedAt = none → v.ID ≠ u0.ID) →
      (a.profileRoute hmac t { Authorization := tok, user := cu } db).1 =
        .err (.HTTPError 404 "User not found")) := by
  obtain ⟨u, hf, _, htok⟩ := Login_ok_inv e b hmac a.handler tLogin req db0 tok hlogin
  rw [hfound] at hf
  injection hf with hf
  subst hf
  subst htok
  have hkey := (New_ok config a hnew).1
  have hexp := float64_Unix tLogin a.handler.tokenDuration hnow
    (New_ok_isInt64 config a hnew hd)
  have hroute : a.profileRoute hmac t
      { Authorization := issuedToken hmac a.handler tLogin u0, user := cu } db =
      a.handler.GetProfile
        (Context.Set { Authorization := issuedToken hmac a.handler tLogin u0, user := cu }
          (issuedParsed hmac a.handler tLogin u0)) db := by
    unfold Auth.profileRoute
    rw [JWTMiddleware_issuedToken hmac a hkey tLogin t u0 _ _ db rfl, hexp]
    simp [ht]
  rw [hroute, GetProfile_fst]
  simp only [Context.Set, issuedParsed_sub hmac a.handler tLogin u0 hid, uint_natCast u0.ID hid]
  constructor
  · intro user hu hlive hsame huniq
    rw [← hsame, FirstByID_of_unique db user hu hlive huniq]
  · intro hnone
    rw [FirstByID_none db u0.ID hnone]

/-- C8, amended, at the scenario of the test suite: the profile of the registered user. -/
theorem GetProfile_returns_token_subject_witness :
    (testAuth.profileRoute refHMAC 1700000001000000000
        { Authorization := issuedToken refHMAC testAuth.handler 1700000000500000000 testUser,
          user := none } oneUserDB).1 =
      .json 200 (.user (MarshalUser testUser)) :=
  (GetProfile_returns_token_subject testEcho refBcrypt refHMAC testConfig testAuth
    1700000000500000000 1700000001000000000 ⟨"test@example.com", "password123"⟩ oneUserDB
    oneUserDB testUser (issuedToken refHMAC testAuth.handler 1700000000500000000 testUser) none
    rfl (by decide) (by decide) (by decide) (by decide) (by decide) (by decide)).1
    testUser (by decide) (by decide) rfl (by decide)

/-- C6 fails as stated: with the validator that the test suite installs, a registration
request with an empty name is answered with the field errors of the validator, which Echo
renders as 500, not 400. -/
theorem Register_invalid_is_not_400 :
    (testAuth.handler.Register testEcho refBcrypt 0 1 (some ⟨"a@b.com", "secret1", ""⟩)
        emptyDB).1 = .err (.ValidationErrors [("Name", "required")]) ∧
    (testAuth.handler.Register testEcho refBcrypt 0 1 (some ⟨"a@b.com", "secret1", ""⟩)
        emptyDB).1.status = some 500 ∧
    (testAuth.handler.Register testEcho refBcrypt 0 1 (some ⟨"a@b.com", "secret1", ""⟩)
        emptyDB).1.status ≠ some 400 := by
  decide

/-- C6, amended: `Register` turns an invalid request away before any call on the store, which
is left as it was, call log included, so that no user is created: a body that does not bind
is answered 400 "Invalid request body"; an error of the registered validator is returned as it
is; and with the `CustomValidator` every request with a missing or malformed email, a
password under 6 characters or an empty name gets such an error. -/
theorem Register_rejects_invalid_before_storage (e : Echo) (b : Bcrypt) (h : AuthHandler)
    (salt : Nat) (now : Time) (db : DB) :
    h.Register e b salt now none db = (.err (.HTTPError 400 "Invalid request body"), db) ∧
    (∀ req err, e.ValidateRegister req = some err →
      h.Register e b salt now (some req) db = (.err err, db)) ∧
    (∀ (isEmail : String → Bool) (req : RegisterRequest),
      (req.Email = "" ∨ isEmail req.Email = false ∨ req.Password.length < 6 ∨ req.Name = "") →
      ∃ fields, fields ≠ [] ∧
        h.Register (setupEcho isEmail) b salt now (some req) db =
          (.err (.ValidationErrors fields), db)) := by
  refine ⟨rfl, ?_, ?_⟩
  · intro req err hv
    simp [AuthHandler.Register, hv]
  · intro isEmail req hbad
    obtain ⟨fields, hne, hv⟩ := ValidateRegister_invalid isEmail req hbad
    exact ⟨fields, hne, by simp [AuthHandler.Register, hv]⟩

/-- C6, amended, at a request with a password of five characters on the store of the test
suite: rows, key sequence and call log stay as they are. -/
theorem Register_rejects_invalid_before_storage_witness :
    ∃ fields, fields ≠ [] ∧
      testAuth.handler.Register (setupEcho refIsEmail) refBcrypt 0 1
          (some ⟨"a@b.com", "12345", "A"⟩) oneUserDB =
        (.err (.ValidationErrors fields), oneUserDB) :=
  (Register_rejects_invalid_before_storage testEcho refBcrypt testAuth.handler 0 1
    oneUserDB).2.2 refIsEmail ⟨"a@b.com", "12345", "A"⟩ (by decide)

end AuthSystem
